import Mathlib

/-!
# Verification of the procheck proxy-validation pipeline

Shallow embedding of `src/proxy_checker_local_slow.py` (the concurrent
proxy-validation engine of the procheck repository), together with theorems
settling the specification claims about it.

Modelling conventions:

* Python strings are Lean `String`s; the network is an explicit oracle
  `Oracle : String → String → NetResult` giving, for each `(ip_port, protocol)`
  pair, the observable behaviour of the single HTTP request a probe performs
  (either an exception of any kind — timeout, refused connection, failed
  handshake, unparseable body — or a response with a status code and the
  decoded JSON fields used by the code).
* Result dictionaries built by `check_proxy` are the `ResultRecord` structure;
  dictionary keys the code never sets on a given path are `Option.none`
  fields.  In particular the record has an `error` field so that claims about
  error tags can be expressed; the source never writes such a key, which the
  embedding renders as `error = none` on every path.
* `asyncio.gather` returns its results in argument order and the per-line
  coroutine `process_proxy` awaits its probes sequentially, so the value-level
  behaviour of a batch is the order-preserving concatenation modelled below;
  the concurrency *shape* (how many probes can be in flight) is modelled
  separately by the batch-length functions.
* Input lines are the entries of the `proxies` list built by `main`, i.e.
  already stripped of surrounding whitespace.
-/

/-- Python `str.lower()` restricted to the ASCII range used by the CLI tokens
(`proxy_checker_local_slow.py`, line 132). -/
def pyLower (s : String) : String := ⟨s.data.map Char.toLower⟩

/-- Python `str.strip('-')`: remove every leading and trailing `'-'`
(`proxy_checker_local_slow.py`, line 132). -/
def pyStripDash (s : String) : String :=
  ⟨((s.data.dropWhile (fun c => c == '-')).reverse.dropWhile (fun c => c == '-')).reverse⟩

/-- The normalisation `protocol.lower().strip('-')` applied to each CLI token
(`proxy_checker_local_slow.py`, line 132). -/
def pyNorm (s : String) : String := pyStripDash (pyLower s)

/-- The membership list of `validate_protocols`
(`proxy_checker_local_slow.py`, line 133). -/
def validTokens : List String := ["http", "https", "socks4", "socks5", "all"]

/-- Embedding of `validate_protocols` (`proxy_checker_local_slow.py`,
lines 128-138): normalise each token, keep it only if recognised, and replace
`https` by `http`. -/
def validate_protocols : List String → List String
  | [] => []
  | p :: rest =>
    let q := pyNorm p
    if q ∈ validTokens then
      (if q == "https" then "http" else q) :: validate_protocols rest
    else
      validate_protocols rest

/-- Boolean prefix test on character lists (used to embed the anchored
alternative `(?:(?P<protocol>http|https|socks4|socks5):\/\/)?` of
`PROXY_REGEX`, `proxy_checker_local_slow.py`, line 15). -/
def startsWithChars : List Char → List Char → Bool
  | [], _ => true
  | _ :: _, [] => false
  | p :: ps, c :: cs => p == c && startsWithChars ps cs

/-- Split a character list at its first `':'`, if any: the embedding of the
regex tail `(?P<ip>[^:]+):(?P<port>\d+)$` — the `ip` group can contain no
colon, so it is exactly the text before the first colon. -/
def hostPortSplit : List Char → Option (List Char × List Char)
  | [] => none
  | c :: rest =>
    if c = ':' then some ([], rest)
    else (hostPortSplit rest).map (fun hp => (c :: hp.1, hp.2))

/-- The optional scheme group of `PROXY_REGEX`: when the line starts with one
of the four `scheme://` literals the group matches it (the regex backtracks
out of `http` into `https` on an `https://` line, and the unprefixed
alternative can never match a line containing `://` because everything after
the first colon would have to be digits), otherwise the group is skipped. -/
def schemeSplit (l : List Char) : Option String × List Char :=
  if startsWithChars "http://".data l then (some "http", l.drop 7)
  else if startsWithChars "https://".data l then (some "https", l.drop 8)
  else if startsWithChars "socks4://".data l then (some "socks4", l.drop 9)
  else if startsWithChars "socks5://".data l then (some "socks5", l.drop 9)
  else (none, l)

/-- The `match.groupdict()` of a successful `PROXY_REGEX.match`
(`proxy_checker_local_slow.py`, lines 15 and 92-94): `ip` and `port` groups as
written, `protocol` group as matched (note: *not* normalised — an `https://`
line yields the hint `"https"`). -/
structure Candidate where
  ip : String
  port : String
  protocol : Option String
deriving DecidableEq

/-- Embedding of `PROXY_REGEX.match(line)`
(`proxy_checker_local_slow.py`, line 15):
`^(?:(?P<protocol>http|https|socks4|socks5):\/\/)?(?P<ip>[^:]+):(?P<port>\d+)$`. -/
def proxyRegexMatch (line : String) : Option Candidate :=
  let sp := schemeSplit line.data
  match hostPortSplit sp.2 with
  | some hp =>
    if hp.1 ≠ [] ∧ hp.2 ≠ [] ∧ hp.2.all Char.isDigit = true then
      some { ip := ⟨hp.1⟩, port := ⟨hp.2⟩, protocol := sp.1 }
    else none
  | none => none

/-- Observable behaviour of the single `session.get(API_URL)` a probe makes
through the candidate proxy: either an exception of any kind (timeout,
connection refused, SOCKS handshake failure, unparseable JSON body, missing
dependency — the bare `except Exception` of `check_proxy` does not
distinguish them), or a response with its status code and the decoded
`query` / `country` fields together with the measured elapsed milliseconds. -/
inductive NetResult where
  | failure
  | response (status : Nat) (query country : String) (elapsedMs : Nat)
deriving DecidableEq

/-- The network environment of a run: behaviour of the probe request for each
`(ip_port, protocol)` pair. -/
def Oracle : Type := String → String → NetResult

/-- A result dictionary built by `check_proxy`
(`proxy_checker_local_slow.py`, lines 52-59 and 78-82).  Keys absent on a
path are `none`; the code never writes an `error` key, so `error` is `none`
on every path. -/
structure ResultRecord where
  proxy : String
  protocol : String
  ip : Option String
  country : Option String
  ping : Option Nat
  status : String
  error : Option String
deriving DecidableEq

/-- The failure dictionary of `check_proxy`
(`proxy_checker_local_slow.py`, lines 78-82): `{"proxy": ..., "protocol": ...,
"status": "Failed"}` and nothing else. -/
def failedRecord (proxy protocol : String) : ResultRecord :=
  { proxy := proxy, protocol := protocol, ip := none, country := none,
    ping := none, status := "Failed", error := none }

/-- Embedding of `check_proxy` (`proxy_checker_local_slow.py`, lines 17-82):
if the request through the proxy raises, or returns a non-200 status, the
probe yields `(False, failure dictionary)`; a 200 response yields `(True,
working dictionary)` carrying the reported IP, country and ping. -/
def check_proxy (net : Oracle) (proxy protocol : String) : Bool × ResultRecord :=
  match net proxy protocol with
  | NetResult.failure => (false, failedRecord proxy protocol)
  | NetResult.response st q c ms =>
    if st = 200 then
      (true, { proxy := proxy, protocol := protocol, ip := some q,
               country := some c, ping := some ms, status := "Working",
               error := none })
    else (false, failedRecord proxy protocol)

/-- The protocol-selection logic of `process_proxy`
(`proxy_checker_local_slow.py`, lines 96-105): CLI `all` first, then any
non-empty CLI selection, then the protocol embedded in the line, then all
three. -/
def protocolsToTest (protocols : List String) (hint : Option String) : List String :=
  if "all" ∈ protocols then ["http", "socks4", "socks5"]
  else if protocols ≠ [] then protocols
  else
    match hint with
    | some p => [p]
    | none => ["http", "socks4", "socks5"]

/-- Embedding of `process_proxy` (`proxy_checker_local_slow.py`,
lines 84-112): parse the line, choose the protocols, probe each sequentially,
and keep **only** the records of successful probes (lines 107-111 append a
result only when `success` is true). -/
def process_proxy (net : Oracle) (protocols : List String) (line : String) :
    List ResultRecord :=
  match proxyRegexMatch line with
  | none => []
  | some cand =>
    let ipPort := cand.ip ++ ":" ++ cand.port
    (protocolsToTest protocols cand.protocol).filterMap fun pr =>
      let res := check_proxy net ipPort pr
      if res.1 then some res.2 else none

/-- The protocols `process_proxy` probes for a given line (empty when the
line does not parse). -/
def protocolsForLine (protocols : List String) (line : String) : List String :=
  match proxyRegexMatch line with
  | none => []
  | some cand => protocolsToTest protocols cand.protocol

/-- The `ip:port` string `process_proxy` passes to `check_proxy` for a line
(`proxy_checker_local_slow.py`, line 93). -/
def ipPortOfLine (line : String) : String :=
  match proxyRegexMatch line with
  | none => ""
  | some cand => cand.ip ++ ":" ++ cand.port

/-- `batch_size = max(1, len(proxies) // args.threads)`
(`proxy_checker_local_slow.py`, line 181). -/
def batchSize (n t : Nat) : Nat := max 1 (n / t)

/-- Fuel-indexed chunking; with fuel at least the list length this is the
slicing loop `proxies[i:i+batch_size] for i in range(0, len(proxies),
batch_size)` (`proxy_checker_local_slow.py`, lines 183-184). -/
def chunkListAux : Nat → Nat → List α → List (List α)
  | 0, _, _ => []
  | _ + 1, _, [] => []
  | fuel + 1, size, x :: xs =>
    (x :: xs.take (size - 1)) :: chunkListAux fuel size (xs.drop (size - 1))

/-- The batches `main` iterates over (`proxy_checker_local_slow.py`,
lines 183-184). -/
def chunkList (size : Nat) (l : List α) : List (List α) :=
  chunkListAux l.length size l

/-- The full `all_results` list of a run (`proxy_checker_local_slow.py`,
lines 180-186): for each batch, `asyncio.gather` returns the per-line result
lists in argument order and `process_proxy_batch` flattens them (lines
114-119); `main` then extends `all_results` batch by batch. -/
def runResults (net : Oracle) (protocols : List String) (lines : List String)
    (t : Nat) : List ResultRecord :=
  ((chunkList (batchSize lines.length t) lines).map
    (fun b => (b.map (process_proxy net protocols)).flatten)).flatten

/-- Everything the final console summary reports
(`proxy_checker_local_slow.py`, lines 195-210): the total line count, the
working count, and the per-protocol working counts (dictionary in insertion
order). -/
structure Summary where
  totalChecked : Nat
  working : Nat
  workingByProtocol : List (String × Nat)
deriving DecidableEq

/-- `protocols_found[protocol] = protocols_found.get(protocol, 0) + 1`
(`proxy_checker_local_slow.py`, line 207) on an insertion-ordered
association list. -/
def bumpCount : List (String × Nat) → String → List (String × Nat)
  | [], k => [(k, 1)]
  | (k', v) :: rest, k =>
    if k' == k then (k', v + 1) :: rest else (k', v) :: bumpCount rest k

/-- Sum of the per-protocol counts. -/
def sumValues (m : List (String × Nat)) : Nat := m.foldr (fun p a => p.2 + a) 0

/-- The console summary of a run (`proxy_checker_local_slow.py`,
lines 195-210): `working = sum(1 for r in all_results if r.get('status') ==
'Working')` and the per-protocol dictionary built by folding over
`all_results`. -/
def summaryOf (net : Oracle) (protocols : List String) (lines : List String)
    (t : Nat) : Summary :=
  let res := runResults net protocols lines t
  { totalChecked := lines.length
  , working := (res.filter (fun r => r.status == "Working")).length
  , workingByProtocol :=
      res.foldl
        (fun acc r => if r.status == "Working" then bumpCount acc r.protocol else acc)
        [] }

/-- The CLI protocol list `main` builds from the four flags and passes
through `validate_protocols` (`proxy_checker_local_slow.py`,
lines 152-164). -/
def cliProtocols (fAll fHttp fSocks4 fSocks5 : Bool) : List String :=
  validate_protocols
    (if fAll then ["all"]
     else (if fHttp then ["http"] else []) ++
          (if fSocks4 then ["socks4"] else []) ++
          (if fSocks5 then ["socks5"] else []))

/-- Setup environment of a run: whether the `aiohttp_socks` dependency is
importable (`proxy_checker_local_slow.py`, lines 212-218), whether the input
file can be read (lines 168-173), and whether the output file can be opened
for writing (`save_results`, line 123). -/
structure Env where
  socksInstalled : Bool
  inputReadable : Bool
  outputWritable : Bool
deriving DecidableEq

/-- Process exit status as a function of the setup environment
(`proxy_checker_local_slow.py`, lines 166-173 and 212-223): a missing
`aiohttp_socks` calls `exit(1)`; an unreadable input file prints the error
and returns normally (exit 0); an unopenable output file raises out of
`save_results` after probing, which terminates the interpreter with a
traceback (exit 1); otherwise the run completes with exit 0.  Probe results
never influence the exit path, so the oracle does not appear. -/
def runExitCode (e : Env) : Nat :=
  if e.socksInstalled = false then 1
  else if e.inputReadable = false then 0
  else if e.outputWritable = false then 1
  else 0

/-- Whether any probing happens in environment `e`: probes run exactly when
the dependency imports and the input file was read (`save_results`, and
hence any output-file failure, comes after the probe loop). -/
def probingOccurs (e : Env) : Bool := e.socksInstalled && e.inputReadable

/-- Claim-side notion (from the claim's words): a fatal setup failure is an
unreadable input file, a missing dependency, or an unwritable output file. -/
def fatalSetupFailure (e : Env) : Bool :=
  !e.socksInstalled || !e.inputReadable || !e.outputWritable

/-- Number of `process_proxy` tasks `asyncio.gather` runs concurrently in
each batch (`proxy_checker_local_slow.py`, lines 114-119 and 183-185): one
per line of the batch.  Each task holds at most one probe in flight at a
time (its probes are sequential), and when every line of the batch parses
each task starts a probe immediately, so the batch's in-flight probe count
reaches the batch length. -/
def batchConcurrency (lines : List String) (t : Nat) : List Nat :=
  (chunkList (batchSize lines.length t) lines).map List.length

/-- The largest number of probes simultaneously in flight over the whole run
(batches run one after another). -/
def maxInFlight (lines : List String) (t : Nat) : Nat :=
  (batchConcurrency lines t).foldr max 0

/-- Claim-side notion (from the claim's words): the number of input lines
that fail to parse. -/
def malformedCountSpec (lines : List String) : Nat :=
  (lines.filter (fun l => (proxyRegexMatch l).isNone)).length

/-- The characters a scheme group contributes to a line matching the input
grammar: `scheme` followed by `://`, or nothing when the group is absent. -/
def schemeChars : Option String → List Char
  | none => []
  | some s => s.data ++ [':', '/', '/']

/-- Claim-side notion (from the claim's words): the error tags a failure
outcome is claimed to carry. -/
def claimedErrorTags : List String :=
  ["Timeout", "ConnectionRefused", "HandshakeFailure", "BadResponse", "Unknown"]

/-- A sample CLI token list exercising the normalisation paths of
`validate_protocols`. -/
def sampleTokens : List String := ["HTTPS", "-socks4-", "junk"]

/-- An oracle on which every probe request raises. -/
def failingNet : Oracle := fun _ _ => NetResult.failure

/-- An oracle on which every probe request succeeds with fixed metadata. -/
def workingNet : Oracle := fun _ _ => NetResult.response 200 "9.9.9.9" "US" 50

/-! ## Helper lemmas -/

theorem startsWithChars_append (p t : List Char) :
    startsWithChars p (p ++ t) = true := by
  induction p with
  | nil => rfl
  | cons c cs ih => simp [startsWithChars, ih]

theorem eq_append_of_startsWithChars :
    ∀ (p l : List Char), startsWithChars p l = true → ∃ t, l = p ++ t := by
  intro p
  induction p with
  | nil => intro l _; exact ⟨l, rfl⟩
  | cons c cs ih =>
    intro l hl
    cases l with
    | nil => simp [startsWithChars] at hl
    | cons d ds =>
      simp only [startsWithChars, Bool.and_eq_true, beq_iff_eq] at hl
      obtain ⟨t, ht⟩ := ih ds hl.2
      exact ⟨t, by simp [hl.1, ht]⟩

theorem hostPortSplit_append (h p : List Char) (hc : ':' ∉ h) :
    hostPortSplit (h ++ ':' :: p) = some (h, p) := by
  induction h with
  | nil => simp [hostPortSplit]
  | cons c cs ih =>
    have hcne : c ≠ ':' := fun he => hc (he ▸ List.mem_cons_self c cs)
    have hcs : ':' ∉ cs := fun hm => hc (List.mem_cons_of_mem c hm)
    simp [hostPortSplit, hcne, ih hcs]

theorem no_scheme_match (a h p : List Char) (ha : ':' ∉ a) (hc : ':' ∉ h)
    (hd : p.all Char.isDigit = true) :
    startsWithChars (a ++ ':' :: '/' :: '/' :: []) (h ++ ':' :: p) = false := by
  cases hsw : startsWithChars (a ++ ':' :: '/' :: '/' :: []) (h ++ ':' :: p) with
  | false => rfl
  | true =>
    exfalso
    obtain ⟨t, ht⟩ := eq_append_of_startsWithChars _ _ hsw
    rw [List.append_assoc] at ht
    have h1 : hostPortSplit (h ++ ':' :: p) = some (h, p) := hostPortSplit_append h p hc
    have h2 : hostPortSplit (h ++ ':' :: p) = some (a, '/' :: '/' :: [] ++ t) := by
      rw [ht]; exact hostPortSplit_append a _ ha
    rw [h1] at h2
    have hp2 : p = '/' :: '/' :: [] ++ t := by
      have := Option.some.inj h2
      exact (Prod.mk.injEq _ _ _ _ ▸ this).2
    rw [hp2] at hd
    simp [List.all_cons, Char.isDigit] at hd

theorem chunkListAux_flatten :
    ∀ (fuel size : Nat) (l : List α), l.length ≤ fuel →
      (chunkListAux fuel size l).flatten = l := by
  intro fuel
  induction fuel with
  | zero =>
    intro size l hl
    have : l = [] := List.length_eq_zero.mp (Nat.le_zero.mp hl)
    subst this; rfl
  | succ n ih =>
    intro size l hl
    cases l with
    | nil => rfl
    | cons x xs =>
      simp only [chunkListAux, List.flatten_cons]
      rw [ih size (xs.drop (size - 1))
        (by
          have := List.length_drop (size - 1) xs
          have hx : xs.length ≤ n := by simpa using hl
          omega)]
      simp [List.cons_append, List.take_append_drop]

theorem chunkListAux_mem_length :
    ∀ (fuel size : Nat) (l : List α) (b : List α), 1 ≤ size →
      b ∈ chunkListAux fuel size l → b.length ≤ size := by
  intro fuel
  induction fuel with
  | zero => intro size l b _ hb; simp [chunkListAux] at hb
  | succ n ih =>
    intro size l b hs hb
    cases l with
    | nil => simp [chunkListAux] at hb
    | cons x xs =>
      simp only [chunkListAux, List.mem_cons] at hb
      rcases hb with hb | hb
      · subst hb
        simp only [List.length_cons]
        have := List.length_take (size - 1) xs
        have h1 : (xs.take (size - 1)).length ≤ size - 1 := by
          rw [this]; exact Nat.min_le_left _ _
        omega
      · exact ih size _ b hs hb

theorem flatten_map_flatten (L : List (List α)) (f : α → List β) :
    ((L.map (fun b => (b.map f).flatten)).flatten) = (L.flatten.map f).flatten := by
  induction L with
  | nil => rfl
  | cons b L' ih =>
    simp only [List.map_cons, List.flatten_cons, List.map_append,
      List.flatten_append, ih]

theorem runResults_eq_flat (net : Oracle) (protocols : List String)
    (lines : List String) (t : Nat) :
    runResults net protocols lines t =
      (lines.map (process_proxy net protocols)).flatten := by
  unfold runResults chunkList
  rw [flatten_map_flatten, chunkListAux_flatten _ _ _ (Nat.le_refl _)]

theorem filterMap_length_filter (f : α → Option β) (l : List α) :
    (l.filterMap f).length = (l.filter (fun a => (f a).isSome)).length := by
  induction l with
  | nil => rfl
  | cons a l' ih =>
    cases hfa : f a with
    | none => simp [List.filterMap_cons, List.filter_cons, hfa, ih]
    | some b => simp [List.filterMap_cons, List.filter_cons, hfa, ih]

theorem filterMap_map_sublist (f : α → Option β) (g : β → α) (l : List α)
    (hfg : ∀ a b, f a = some b → g b = a) :
    ((l.filterMap f).map g).Sublist l := by
  induction l with
  | nil => simp
  | cons a l' ih =>
    cases hfa : f a with
    | none => simp only [List.filterMap_cons, hfa]; exact ih.cons a
    | some b =>
      simp only [List.filterMap_cons, hfa, List.map_cons]
      rw [hfg a b hfa]
      exact ih.cons₂ a

theorem check_proxy_protocol (net : Oracle) (p pr : String) :
    (check_proxy net p pr).2.protocol = pr := by
  unfold check_proxy
  cases net p pr with
  | failure => rfl
  | response st q c ms =>
    by_cases h : st = 200 <;> simp [h, failedRecord]

theorem check_proxy_false (net : Oracle) (p pr : String)
    (h : (check_proxy net p pr).1 = false) :
    (check_proxy net p pr).2 = failedRecord p pr := by
  cases hn : net p pr with
  | failure => simp [check_proxy, hn]
  | response st q c ms =>
    by_cases h200 : st = 200
    · simp [check_proxy, hn, h200] at h
    · simp [check_proxy, hn, h200]

theorem check_proxy_true (net : Oracle) (p pr : String)
    (h : (check_proxy net p pr).1 = true) :
    (check_proxy net p pr).2.status = "Working" ∧
      (check_proxy net p pr).2.ping.isSome = true ∧
      (check_proxy net p pr).2.error = none := by
  cases hn : net p pr with
  | failure => simp [check_proxy, hn] at h
  | response st q c ms =>
    by_cases h200 : st = 200
    · simp [check_proxy, hn, h200]
    · simp [check_proxy, hn, h200] at h

theorem process_proxy_mem (net : Oracle) (protocols : List String)
    (line : String) (r : ResultRecord) (hr : r ∈ process_proxy net protocols line) :
    r.status = "Working" ∧ r.error = none := by
  unfold process_proxy at hr
  cases hm : proxyRegexMatch line with
  | none => rw [hm] at hr; simp at hr
  | some cand =>
    rw [hm] at hr
    simp only [List.mem_filterMap] at hr
    obtain ⟨pr, _, hpr⟩ := hr
    by_cases hs : (check_proxy net (cand.ip ++ ":" ++ cand.port) pr).1 = true
    · simp only [hs, if_true] at hpr
      obtain ⟨h1, _, h3⟩ := check_proxy_true net _ pr hs
      cases hpr
      exact ⟨h1, h3⟩
    · simp only [Bool.not_eq_true] at hs
      simp [hs] at hpr

theorem schemeSplit_http (r : List Char) :
    schemeSplit ("http://".data ++ r) = (some "http", r) := by
  unfold schemeSplit
  rw [if_pos (startsWithChars_append "http://".data r)]
  rw [List.drop_left' (by rfl)]

theorem schemeSplit_https (r : List Char) :
    schemeSplit ("https://".data ++ r) = (some "https", r) := by
  unfold schemeSplit
  have h1 : startsWithChars "http://".data ("https://".data ++ r) = false := rfl
  rw [h1, if_neg (by simp)]
  rw [if_pos (startsWithChars_append "https://".data r)]
  rw [List.drop_left' (by rfl)]

theorem schemeSplit_socks4 (r : List Char) :
    schemeSplit ("socks4://".data ++ r) = (some "socks4", r) := by
  unfold schemeSplit
  have h1 : startsWithChars "http://".data ("socks4://".data ++ r) = false := rfl
  have h2 : startsWithChars "https://".data ("socks4://".data ++ r) = false := rfl
  rw [h1, if_neg (by simp), h2, if_neg (by simp)]
  rw [if_pos (startsWithChars_append "socks4://".data r)]
  rw [List.drop_left' (by rfl)]

theorem schemeSplit_socks5 (r : List Char) :
    schemeSplit ("socks5://".data ++ r) = (some "socks5", r) := by
  unfold schemeSplit
  have h1 : startsWithChars "http://".data ("socks5://".data ++ r) = false := rfl
  have h2 : startsWithChars "https://".data ("socks5://".data ++ r) = false := rfl
  have h3 : startsWithChars "socks4://".data ("socks5://".data ++ r) = false := rfl
  rw [h1, if_neg (by simp), h2, if_neg (by simp), h3, if_neg (by simp)]
  rw [if_pos (startsWithChars_append "socks5://".data r)]
  rw [List.drop_left' (by rfl)]

theorem schemeSplit_noScheme (h p : List Char) (hc : ':' ∉ h)
    (hd : p.all Char.isDigit = true) :
    schemeSplit (h ++ ':' :: p) = (none, h ++ ':' :: p) := by
  unfold schemeSplit
  have h1 := no_scheme_match "http".data h p (by decide) hc hd
  have h2 := no_scheme_match "https".data h p (by decide) hc hd
  have h3 := no_scheme_match "socks4".data h p (by decide) hc hd
  have h4 := no_scheme_match "socks5".data h p (by decide) hc hd
  rw [show ("http://".data : List Char) = "http".data ++ ':' :: '/' :: '/' :: [] from rfl,
      show ("https://".data : List Char) = "https".data ++ ':' :: '/' :: '/' :: [] from rfl,
      show ("socks4://".data : List Char) = "socks4".data ++ ':' :: '/' :: '/' :: [] from rfl,
      show ("socks5://".data : List Char) = "socks5".data ++ ':' :: '/' :: '/' :: [] from rfl]
  rw [h1, h2, h3, h4]
  simp

/-- The common tail of the parser-correctness argument: once `schemeSplit`
has produced the scheme group and the remainder `host ++ ':' ++ digits`, the
match succeeds with the groups as written. -/
theorem proxyRegexMatch_of_schemeSplit (line : String) (pre : Option String)
    (h p : List Char) (hsp : schemeSplit line.data = (pre, h ++ ':' :: p))
    (hh : h ≠ []) (hcolon : ':' ∉ h) (hp : p ≠ [])
    (hdig : p.all Char.isDigit = true) :
    proxyRegexMatch line = some { ip := ⟨h⟩, port := ⟨p⟩, protocol := pre } := by
  unfold proxyRegexMatch
  rw [hsp]
  simp only
  rw [hostPortSplit_append h p hcolon]
  simp only
  rw [if_pos ⟨hh, hp, hdig⟩]

/-- C4 (amended): for every input line matching the grammar — an optional
`http`/`https`/`socks4`/`socks5` `://` group, then a non-empty colon-free
host, `':'`, and a non-empty digit string — the parser produces the host and
port digits exactly as written, and the hinted protocol is set iff the
scheme group was present, **kept verbatim**: an `https://` line yields the
hint `"https"`, which is *not* normalised to `"http"` (the `https` → `http`
rewrite of `validate_protocols` applies only to CLI flag tokens). -/
theorem claim_C4_theorem (line : String) (pre : Option String) (h p : List Char)
    (hdecomp : line.data = schemeChars pre ++ h ++ ':' :: p)
    (hpre : pre = none ∨ pre = some "http" ∨ pre = some "https" ∨
            pre = some "socks4" ∨ pre = some "socks5")
    (hh : h ≠ []) (hcolon : ':' ∉ h) (hp : p ≠ [])
    (hdig : p.all Char.isDigit = true) :
    proxyRegexMatch line = some { ip := ⟨h⟩, port := ⟨p⟩, protocol := pre } := by
  apply proxyRegexMatch_of_schemeSplit line pre h p _ hh hcolon hp hdig
  rcases hpre with h0 | h0 | h0 | h0 | h0 <;> subst h0
  · rw [hdecomp]
    simp only [schemeChars, List.nil_append]
    exact schemeSplit_noScheme h p hcolon hdig
  · rw [hdecomp, show schemeChars (some "http") ++ h ++ ':' :: p =
      "http://".data ++ (h ++ ':' :: p) from by simp [schemeChars]]
    exact schemeSplit_http (h ++ ':' :: p)
  · rw [hdecomp, show schemeChars (some "https") ++ h ++ ':' :: p =
      "https://".data ++ (h ++ ':' :: p) from by simp [schemeChars]]
    exact schemeSplit_https (h ++ ':' :: p)
  · rw [hdecomp, show schemeChars (some "socks4") ++ h ++ ':' :: p =
      "socks4://".data ++ (h ++ ':' :: p) from by simp [schemeChars]]
    exact schemeSplit_socks4 (h ++ ':' :: p)
  · rw [hdecomp, show schemeChars (some "socks5") ++ h ++ ':' :: p =
      "socks5://".data ++ (h ++ ':' :: p) from by simp [schemeChars]]
    exact schemeSplit_socks5 (h ++ ':' :: p)

/-- C4 fails as stated: an `https://` line keeps the hint `"https"` — it is
not normalised to `"http"` before probing, and with no CLI selection the
protocol actually probed is the literal string `"https"`. -/
theorem claim_C4_cex :
    proxyRegexMatch "https://1.2.3.4:80" =
      some { ip := "1.2.3.4", port := "80", protocol := some "https" } ∧
    (proxyRegexMatch "https://1.2.3.4:80").map Candidate.protocol ≠
      some (some "http") ∧
    protocolsForLine [] "https://1.2.3.4:80" = ["https"] := by
  refine ⟨by decide, by decide, by decide⟩

theorem claim_C4_witness :
    proxyRegexMatch "socks4://example.com:8080" =
      some { ip := "example.com", port := "8080", protocol := some "socks4" } :=
  claim_C4_theorem "socks4://example.com:8080" (some "socks4")
    "example.com".data "8080".data (by decide)
    (Or.inr (Or.inr (Or.inr (Or.inl rfl)))) (by decide) (by decide) (by decide)
    (by decide)

/-- The case analysis of the selection priority, for an arbitrary CLI
protocol list. -/
theorem selection_cases (c : List String) (hint : Option String) :
    (("all" ∈ c) → protocolsToTest c hint = ["http", "socks4", "socks5"]) ∧
    (("all" ∉ c) → c ≠ [] → protocolsToTest c hint = c) ∧
    (c = [] → ∀ pr, hint = some pr → protocolsToTest c hint = [pr]) ∧
    (c = [] → hint = none → protocolsToTest c hint = ["http", "socks4", "socks5"]) := by
  refine ⟨?_, ?_, ?_, ?_⟩
  · intro hin
    unfold protocolsToTest
    rw [if_pos hin]
  · intro hnin hne
    unfold protocolsToTest
    rw [if_neg hnin, if_pos hne]
  · intro hce pr hpr
    subst hce; subst hpr
    rfl
  · intro hce hn
    subst hce; subst hn
    rfl

/-- C2: for every CLI flag state and every hint, the set of protocols probed
follows the priority order exactly: CLI `all` gives all three, a non-empty
CLI selection gives exactly that list, otherwise a present hint gives just
the hinted protocol, and absence of both gives all three. -/
theorem claim_C2_theorem (fAll fHttp fSocks4 fSocks5 : Bool) (hint : Option String) :
    (("all" ∈ cliProtocols fAll fHttp fSocks4 fSocks5) →
      protocolsToTest (cliProtocols fAll fHttp fSocks4 fSocks5) hint =
        ["http", "socks4", "socks5"]) ∧
    (("all" ∉ cliProtocols fAll fHttp fSocks4 fSocks5) →
      cliProtocols fAll fHttp fSocks4 fSocks5 ≠ [] →
      protocolsToTest (cliProtocols fAll fHttp fSocks4 fSocks5) hint =
        cliProtocols fAll fHttp fSocks4 fSocks5) ∧
    (cliProtocols fAll fHttp fSocks4 fSocks5 = [] → ∀ pr, hint = some pr →
      protocolsToTest (cliProtocols fAll fHttp fSocks4 fSocks5) hint = [pr]) ∧
    (cliProtocols fAll fHttp fSocks4 fSocks5 = [] → hint = none →
      protocolsToTest (cliProtocols fAll fHttp fSocks4 fSocks5) hint =
        ["http", "socks4", "socks5"]) :=
  selection_cases (cliProtocols fAll fHttp fSocks4 fSocks5) hint

theorem claim_C2_witness :
    protocolsToTest (cliProtocols false false true false) none =
      cliProtocols false false true false :=
  (claim_C2_theorem false false true false none).2.1 (by decide) (by decide)

/-- C1 (amended): `process_proxy` records an outcome only for *successful*
probes: every collected record has status `Working` (and no error tag), and
the number of collected records equals the number of probed protocols whose
probe succeeded — failed probes produce a `success=false` record inside
`check_proxy`, but `process_proxy` silently drops it before aggregation. -/
theorem claim_C1_theorem (net : Oracle) (protocols : List String) (line : String) :
    (∀ r, r ∈ process_proxy net protocols line →
      r.status = "Working" ∧ r.error = none) ∧
    (process_proxy net protocols line).length =
      ((protocolsForLine protocols line).filter
        (fun pr => (check_proxy net (ipPortOfLine line) pr).1)).length := by
  constructor
  · exact fun r hr => process_proxy_mem net protocols line r hr
  · unfold process_proxy protocolsForLine ipPortOfLine
    cases hm : proxyRegexMatch line with
    | none => rfl
    | some cand =>
      simp only
      rw [filterMap_length_filter]
      congr 1
      apply List.filter_congr
      intro pr _
      by_cases hs : (check_proxy net (cand.ip ++ ":" ++ cand.port) pr).1 = true
      · simp [hs]
      · simp only [Bool.not_eq_true] at hs
        simp [hs]

/-- C1 fails as stated: on a line whose three probes all fail, three work
items are probed, each probe produces a `success=false` record inside
`check_proxy`, yet the collected result list is empty — the failures are
silently dropped before aggregation. -/
theorem claim_C1_cex :
    process_proxy failingNet ["all"] "1.2.3.4:80" = [] ∧
    protocolsForLine ["all"] "1.2.3.4:80" = ["http", "socks4", "socks5"] ∧
    (check_proxy failingNet "1.2.3.4:80" "http").1 = false ∧
    (check_proxy failingNet "1.2.3.4:80" "http").2.status = "Failed" := by
  refine ⟨by decide, by decide, by decide, by decide⟩

theorem claim_C1_witness :
    ({ proxy := "1.2.3.4:80", protocol := "http", ip := some "9.9.9.9",
       country := some "US", ping := some 50, status := "Working",
       error := none } : ResultRecord).status = "Working" ∧
    ({ proxy := "1.2.3.4:80", protocol := "http", ip := some "9.9.9.9",
       country := some "US", ping := some 50, status := "Working",
       error := none } : ResultRecord).error = none :=
  (claim_C1_theorem workingNet ["all"] "1.2.3.4:80").1 _ (by decide)

/-- C5 (amended): every failure yields `success=false` with the fixed record
`{proxy, protocol, status: Failed}` carrying **no error tag** (the code
never writes an `error` key) and no partial metadata (no ip, country or
ping), and every fault inside a probe is converted to this record at the
probe boundary rather than escaping (`check_proxy` is total over all
network behaviours); a success carries status `Working` and a ping. -/
theorem claim_C5_theorem (net : Oracle) (p pr : String) :
    ((check_proxy net p pr).1 = false →
      (check_proxy net p pr).2 = failedRecord p pr) ∧
    ((check_proxy net p pr).1 = true →
      (check_proxy net p pr).2.status = "Working" ∧
      (check_proxy net p pr).2.ping.isSome = true) :=
  ⟨check_proxy_false net p pr,
   fun h => ⟨(check_proxy_true net p pr h).1, (check_proxy_true net p pr h).2.1⟩⟩

/-- C5 fails as stated: a failed probe's record carries no error tag at all —
its `error` field is `none`, which is none of the five claimed tags. -/
theorem claim_C5_cex :
    (check_proxy failingNet "1.2.3.4:80" "http").2.error = none ∧
    (∀ tag, tag ∈ claimedErrorTags →
      (check_proxy failingNet "1.2.3.4:80" "http").2.error ≠ some tag) := by
  refine ⟨by decide, by decide⟩

theorem claim_C5_witness :
    (check_proxy failingNet "1.2.3.4:80" "socks5").2 =
      failedRecord "1.2.3.4:80" "socks5" :=
  (claim_C5_theorem failingNet "1.2.3.4:80" "socks5").1 (by decide)

theorem foldr_max_le (L : List Nat) (s : Nat) (hL : ∀ x ∈ L, x ≤ s) :
    L.foldr max 0 ≤ s := by
  induction L with
  | nil => exact Nat.zero_le s
  | cons x L' ih =>
    simp only [List.foldr_cons]
    exact Nat.max_le.mpr
      ⟨hL x (List.mem_cons_self x L'),
       ih (fun y hy => hL y (List.mem_cons_of_mem x hy))⟩

/-- C3 (amended): the coordinator bounds the number of simultaneously
in-flight probes not by the thread argument `t` but by the batch size
`max(1, ⌊n / t⌋)` (`n` the number of input lines), which grows with the
input and can exceed `t`; every line is still scheduled in exactly one
batch. -/
theorem claim_C3_theorem (lines : List String) (t : Nat) (_ht : 1 ≤ t) :
    maxInFlight lines t ≤ batchSize lines.length t ∧
    (chunkList (batchSize lines.length t) lines).flatten = lines := by
  constructor
  · unfold maxInFlight batchConcurrency
    apply foldr_max_le
    intro x hx
    simp only [List.mem_map] at hx
    obtain ⟨b, hb, hbx⟩ := hx
    subst hbx
    exact chunkListAux_mem_length lines.length (batchSize lines.length t) lines b
      (Nat.le_max_left 1 _) hb
  · exact chunkListAux_flatten lines.length (batchSize lines.length t) lines
      (Nat.le_refl _)

/-- C3 fails as stated: with 100 input lines and a thread argument of 5, the
batch size is `max(1, 100 // 5) = 20`, so the first batch runs 20 concurrent
`process_proxy` tasks — 20 probes in flight, four times the configured
limit of 5. -/
theorem claim_C3_cex :
    maxInFlight (List.replicate 100 "1.2.3.4:80") 5 = 20 ∧
    ¬ maxInFlight (List.replicate 100 "1.2.3.4:80") 5 ≤ 5 := by
  refine ⟨by decide, by decide⟩

theorem claim_C3_witness :
    maxInFlight ["1.2.3.4:80"] 1 ≤ batchSize (["1.2.3.4:80"] : List String).length 1 ∧
    (chunkList (batchSize (["1.2.3.4:80"] : List String).length 1)
      ["1.2.3.4:80"]).flatten = ["1.2.3.4:80"] :=
  claim_C3_theorem ["1.2.3.4:80"] 1 (by decide)

/-- C6 (amended): a malformed line yields a parse failure and is skipped
without aborting — `process_proxy` returns no outcomes for it and the rest
of the run is unchanged — but the line is still included in the reported
total, and the run keeps **no** malformed-line count: the printed summary
has no such field. -/
theorem claim_C6_theorem (net : Oracle) (protocols : List String) (l : String)
    (ls : List String) (t : Nat) (hbad : proxyRegexMatch l = none) :
    process_proxy net protocols l = [] ∧
    runResults net protocols (l :: ls) t = runResults net protocols ls t ∧
    (summaryOf net protocols (l :: ls) t).totalChecked =
      (summaryOf net protocols ls t).totalChecked + 1 ∧
    (summaryOf net protocols (l :: ls) t).working =
      (summaryOf net protocols ls t).working := by
  have h1 : process_proxy net protocols l = [] := by
    unfold process_proxy
    rw [hbad]
  have h2 : runResults net protocols (l :: ls) t = runResults net protocols ls t := by
    rw [runResults_eq_flat, runResults_eq_flat, List.map_cons, List.flatten_cons,
      h1, List.nil_append]
  refine ⟨h1, h2, rfl, ?_⟩
  simp only [summaryOf, h2]

/-- C6 fails as stated: two runs whose malformed-line counts differ (1 vs 2)
produce byte-identical summaries — the summary reports a total and a
working count but no malformed-line count, so no such count is reported. -/
theorem claim_C6_cex :
    summaryOf failingNet [] ["bad", "1.2.3.4:80"] 1 =
      summaryOf failingNet [] ["bad", "worse"] 1 ∧
    malformedCountSpec ["bad", "1.2.3.4:80"] = 1 ∧
    malformedCountSpec ["bad", "worse"] = 2 := by
  refine ⟨by decide, by decide, by decide⟩

theorem claim_C6_witness :
    process_proxy failingNet [] "bad" = [] ∧
    runResults failingNet [] ["bad", "1.2.3.4:80"] 1 =
      runResults failingNet [] ["1.2.3.4:80"] 1 ∧
    (summaryOf failingNet [] ["bad", "1.2.3.4:80"] 1).totalChecked =
      (summaryOf failingNet [] ["1.2.3.4:80"] 1).totalChecked + 1 ∧
    (summaryOf failingNet [] ["bad", "1.2.3.4:80"] 1).working =
      (summaryOf failingNet [] ["1.2.3.4:80"] 1).working :=
  claim_C6_theorem failingNet [] "bad" ["1.2.3.4:80"] 1 (by decide)

/-- C7 (amended): the exit status is non-zero iff the `aiohttp_socks`
dependency is missing (exit 1 before anything runs) or the output file turns
out to be unwritable after probing (unhandled exception); an *unreadable
input file* aborts the run before any probing starts but exits with status
0, not non-zero; probe failures never influence the exit path at all (the
exit code is a function of the setup environment only). -/
theorem claim_C7_theorem (e : Env) :
    (runExitCode e ≠ 0 ↔ (e.socksInstalled = false ∨
      (e.socksInstalled = true ∧ e.inputReadable = true ∧
        e.outputWritable = false))) ∧
    (e.socksInstalled = false → probingOccurs e = false) ∧
    (e.inputReadable = false → probingOccurs e = false ∧
      (e.socksInstalled = true → runExitCode e = 0)) := by
  rcases e with ⟨s, i, o⟩
  cases s <;> cases i <;> cases o <;> refine ⟨by decide, by decide, by decide⟩

/-- C7 fails as stated: an unreadable input file is a fatal setup failure
(the run aborts before probing with a diagnostic), yet the process exits
with status 0, not non-zero. -/
theorem claim_C7_cex :
    fatalSetupFailure ⟨true, false, true⟩ = true ∧
    probingOccurs ⟨true, false, true⟩ = false ∧
    runExitCode ⟨true, false, true⟩ = 0 := by
  refine ⟨by decide, by decide, by decide⟩

theorem claim_C7_witness :
    probingOccurs ⟨true, false, true⟩ = false ∧
    (Env.socksInstalled ⟨true, false, true⟩ = true →
      runExitCode ⟨true, false, true⟩ = 0) :=
  (claim_C7_theorem ⟨true, false, true⟩).2.2 rfl

theorem sumValues_bumpCount (m : List (String × Nat)) (k : String) :
    sumValues (bumpCount m k) = sumValues m + 1 := by
  induction m with
  | nil => rfl
  | cons e rest ih =>
    rcases e with ⟨k', v⟩
    by_cases hk : (k' == k) = true
    · simp [bumpCount, hk, sumValues, List.foldr_cons]
      omega
    · simp only [Bool.not_eq_true] at hk
      simp [bumpCount, hk, sumValues, List.foldr_cons] at ih ⊢
      omega

theorem sumValues_foldl_working (res : List ResultRecord) :
    ∀ acc : List (String × Nat),
      sumValues (res.foldl
        (fun acc r =>
          if r.status == "Working" then bumpCount acc r.protocol else acc) acc) =
      sumValues acc +
        (res.filter (fun r => r.status == "Working")).length := by
  induction res with
  | nil => intro acc; simp
  | cons r res' ih =>
    intro acc
    simp only [List.foldl_cons, List.filter_cons]
    by_cases hw : (r.status == "Working") = true
    · rw [if_pos hw, if_pos hw, ih (bumpCount acc r.protocol),
        sumValues_bumpCount, List.length_cons]
      omega
    · rw [if_neg hw, if_neg hw, ih acc]

theorem runResults_all_working (net : Oracle) (protocols : List String)
    (lines : List String) (t : Nat) (r : ResultRecord)
    (hr : r ∈ runResults net protocols lines t) : r.status = "Working" := by
  rw [runResults_eq_flat] at hr
  rw [List.mem_flatten] at hr
  obtain ⟨b, hb, hrb⟩ := hr
  rw [List.mem_map] at hb
  obtain ⟨l, _, hlb⟩ := hb
  subst hlb
  exact (process_proxy_mem net protocols l r hrb).1

/-- C8: the summary's working count equals the number of collected outcomes
whose status is `Working`, the per-protocol working counts sum to the
working count, and — since `process_proxy` collects only successful
outcomes — the working count is in fact the length of the whole collected
list. -/
theorem claim_C8_theorem (net : Oracle) (protocols : List String)
    (lines : List String) (t : Nat) :
    (summaryOf net protocols lines t).working =
      ((runResults net protocols lines t).filter
        (fun r => r.status == "Working")).length ∧
    sumValues (summaryOf net protocols lines t).workingByProtocol =
      (summaryOf net protocols lines t).working ∧
    (summaryOf net protocols lines t).working =
      (runResults net protocols lines t).length := by
  refine ⟨rfl, ?_, ?_⟩
  · simp only [summaryOf]
    rw [sumValues_foldl_working]
    simp [sumValues]
  · simp only [summaryOf]
    congr 1
    apply List.filter_eq_self.mpr
    intro r hr
    simp [runResults_all_working net protocols lines t r hr]

theorem vp_mem (l : List String) (x : String) (hx : x ∈ validate_protocols l) :
    x ∈ (["http", "socks4", "socks5", "all"] : List String) := by
  induction l with
  | nil => simp [validate_protocols] at hx
  | cons p rest ih =>
    simp only [validate_protocols] at hx
    by_cases hq : pyNorm p ∈ validTokens
    · rw [if_pos hq] at hx
      rcases List.mem_cons.mp hx with hx1 | hx2
      · subst hx1
        simp only [validTokens, List.mem_cons, List.not_mem_nil, or_false] at hq
        rcases hq with h0 | h0 | h0 | h0 | h0 <;> rw [h0] <;> decide
      · exact ih hx2
    · rw [if_neg hq] at hx
      exact ih hx

theorem vp_fix (m : List String)
    (hmem : ∀ x ∈ m, x ∈ (["http", "socks4", "socks5", "all"] : List String)) :
    validate_protocols m = m := by
  induction m with
  | nil => rfl
  | cons x m' ih =>
    have hx : x ∈ (["http", "socks4", "socks5", "all"] : List String) :=
      hmem x (List.mem_cons_self x m')
    have hrest := ih (fun y hy => hmem y (List.mem_cons_of_mem x hy))
    have e1 : pyNorm "http" = "http" := by decide
    have e2 : pyNorm "socks4" = "socks4" := by decide
    have e3 : pyNorm "socks5" = "socks5" := by decide
    have e4 : pyNorm "all" = "all" := by decide
    fin_cases hx <;>
      simp [validate_protocols, validTokens, e1, e2, e3, e4, hrest]

/-- C9: `validate_protocols` returns only tokens from
`{http, socks4, socks5, all}`, never returns `https` (each `https` argument
becomes `http`), silently drops unrecognised tokens, and is idempotent. -/
theorem claim_C9_theorem (l : List String) :
    (∀ x, x ∈ validate_protocols l →
      x ∈ (["http", "socks4", "socks5", "all"] : List String)) ∧
    "https" ∉ validate_protocols l ∧
    validate_protocols ("https" :: l) = "http" :: validate_protocols l ∧
    validate_protocols ("ftp" :: l) = validate_protocols l ∧
    validate_protocols (validate_protocols l) = validate_protocols l := by
  refine ⟨fun x hx => vp_mem l x hx, ?_, ?_, ?_, ?_⟩
  · intro hin
    have := vp_mem l "https" hin
    simp at this
  · have e : pyNorm "https" = "https" := by decide
    simp [validate_protocols, e, validTokens]
  · have e : pyNorm "ftp" = "ftp" := by decide
    simp [validate_protocols, e, validTokens]
  · exact vp_fix (validate_protocols l) (fun x hx => vp_mem l x hx)

theorem claim_C9_witness :
    "http" ∈ (["http", "socks4", "socks5", "all"] : List String) ∧
    validate_protocols (validate_protocols sampleTokens) =
      validate_protocols sampleTokens :=
  ⟨(claim_C9_theorem sampleTokens).1 "http" (by decide),
   (claim_C9_theorem sampleTokens).2.2.2.2⟩

/-- C10: the collected result list is deterministic in input order, not
completion order — for every thread argument it equals the concatenation,
line by line in input-file order, of each line's records (each batch gather
preserves argument order and batches run in order); within one line the
record protocols form an in-order subsequence of the probed protocol list,
which is exactly `http, socks4, socks5` whenever `all` is selected and the
line parses. -/
theorem claim_C10_theorem (net : Oracle) (protocols : List String)
    (lines : List String) (t : Nat) :
    runResults net protocols lines t =
      (lines.map (process_proxy net protocols)).flatten ∧
    (∀ line, ((process_proxy net protocols line).map
        (fun r => r.protocol)).Sublist (protocolsForLine protocols line)) ∧
    ("all" ∈ protocols → ∀ line cand, proxyRegexMatch line = some cand →
      protocolsForLine protocols line = ["http", "socks4", "socks5"]) := by
  refine ⟨runResults_eq_flat net protocols lines t, ?_, ?_⟩
  · intro line
    unfold process_proxy protocolsForLine
    cases hm : proxyRegexMatch line with
    | none => simp
    | some cand =>
      simp only
      apply filterMap_map_sublist
      intro pr r hpr
      by_cases hs : (check_proxy net (cand.ip ++ ":" ++ cand.port) pr).1 = true
      · simp only [hs, if_true] at hpr
        have := check_proxy_protocol net (cand.ip ++ ":" ++ cand.port) pr
        cases hpr
        exact this
      · simp only [Bool.not_eq_true] at hs
        simp [hs] at hpr
  · intro hall line cand hcand
    simp [protocolsForLine, hcand, protocolsToTest, hall]

theorem claim_C10_witness :
    protocolsForLine ["all"] "1.2.3.4:80" = ["http", "socks4", "socks5"] :=
  (claim_C10_theorem workingNet ["all"] ["1.2.3.4:80"] 1).2.2 (by decide)
    "1.2.3.4:80" { ip := "1.2.3.4", port := "80", protocol := none } (by decide)
